import Mathlib

/-!
Verification of the G-code layer loader (`src/public/GCodeLoaderLayer.js`).

The interpreter core is embedded shallowly:

* JavaScript numbers are modelled by `JSNum := Option ℚ`, where `none` plays
  the role of `NaN` (produced by `parseFloat` on a malformed numeric token).
  Arithmetic propagates `none`; every comparison involving `none` is false,
  except `!=`, which is true — matching IEEE/JS semantics at every use site
  of the source (`delta(...) > 0`, `line.z != currentLayer.z`).
* The mutable `state` object becomes `MState`.  The source ends every G0/G1
  with `state = line`, where `line` carries only `x,y,z,e,f`; the dropped
  `extruding` and `relative` properties read back as `undefined`, which is
  falsy at every use site, so the embedded target state stores them as
  `false`.
* `layers` plus the aliased `currentLayer` become `done : List Layer`
  (the completed prefix) and `cur : Option Layer` (the last pushed layer,
  still being mutated); the full array is `done ++ cur.toList`.
* The module-level `let tcode = 0` becomes an explicit value threaded in and
  out of `parse` (`tcodeInit` is its load-time value).
* Strings are processed as `List Char`.  The source strips comments from the
  whole buffer with the regex `/;.+/g` before splitting on newlines; since
  `.` never matches a newline this equals stripping each line separately,
  which is how `parse` is written here.
* `parseFloatQ` models `parseFloat` on the token remainders: optional sign,
  decimal digits, optional fractional part, trailing garbage ignored, `none`
  (NaN) when no digit is found.  Exponent and hexadecimal forms are not
  modelled; no claim below involves such tokens.

Rendering concerns of the source (materials, `THREE.Group` assembly,
network loading) are outside the interpreter core and are not modelled,
except for the layer aggregation logic (`splitLayer` branch), embedded as
`flattenLayers` over the produced `Layer` list.
-/

namespace GCodeLayer

/-- A JavaScript number: `none` is NaN. -/
abbrev JSNum := Option ℚ

/-- JS addition; NaN propagates. -/
def jadd : JSNum → JSNum → JSNum
  | some a, some b => some (a + b)
  | _, _ => none

/-- JS subtraction; NaN propagates. -/
def jsub : JSNum → JSNum → JSNum
  | some a, some b => some (a - b)
  | _, _ => none

/-- JS `a > b`; false when either side is NaN. -/
def jgt : JSNum → JSNum → Bool
  | some a, some b => decide (b < a)
  | _, _ => false

/-- JS `a != b` on numbers; true when either side is NaN. -/
def jne : JSNum → JSNum → Bool
  | some a, some b => decide (a ≠ b)
  | _, _ => true

/-- The machine state of the interpreter (the source's `state` object).
`extruding` and `relative` are the boolean flags; after a G0/G1 the source
replaces `state` by an object lacking them, modelled by storing `false`. -/
structure MState where
  x : JSNum
  y : JSNum
  z : JSNum
  e : JSNum
  f : JSNum
  extruding : Bool
  relative : Bool
deriving DecidableEq

/-- A layer: three flat coordinate lists (source's `vertex`, `pathVertex`,
`supportVertex`) and the identifying `z`. -/
structure Layer where
  vertex : List JSNum
  pathVertex : List JSNum
  supportVertex : List JSNum
  z : JSNum
deriving DecidableEq

/-- Parse-local state: machine state, completed layers, and the current
layer (the last one pushed into the source's `layers` array, still aliased
by `currentLayer`). -/
structure PState where
  state : MState
  done : List Layer
  cur : Option Layer
deriving DecidableEq

/-- The source's `layers` array: completed layers followed by the current
one (the alias `currentLayer` always points at the last pushed layer). -/
def allLayers (ps : PState) : List Layer :=
  ps.done ++ ps.cur.toList

/-- Initial machine state (source lines 57–65). -/
def initState : MState :=
  { x := some 0, y := some 0, z := some 0, e := some 0, f := some 0,
    extruding := false, relative := false }

/-- Parse-local state at the start of `parse`: no layers, no current layer. -/
def initPS : PState :=
  { state := initState, done := [], cur := none }

/-- Load-time value of the module-level `tcode` variable (source line 11). -/
def tcodeInit : ℕ := 0

/-- Source's `delta(v1, v2)`: `state.relative ? v2 : v2 - v1`. -/
def delta (rel : Bool) (v1 v2 : JSNum) : JSNum :=
  if rel then v2 else jsub v2 v1

/-- Source's `absolute(v1, v2)`: `state.relative ? v1 + v2 : v2`. -/
def absolute (rel : Bool) (v1 v2 : JSNum) : JSNum :=
  if rel then jadd v1 v2 else v2

/-- The six flat coordinates pushed for one segment from `p1` to `p2`. -/
def seg (p1 p2 : MState) : List JSNum :=
  [p1.x, p1.y, p1.z, p2.x, p2.y, p2.z]

/-- Source's `newLayer(line)`: push a fresh layer (becoming the new current
layer) whose `z` is taken from the argument; the previous current layer is
now a completed prefix entry. -/
def newLayer (z : JSNum) (done : List Layer) (cur : Option Layer) :
    List Layer × Option Layer :=
  (done ++ cur.toList, some { vertex := [], pathVertex := [], supportVertex := [], z := z })

/-- The classification pushes of `addSegment` (source lines 95–103): the
segment goes to `vertex` when the extruding flag is read true and the tool
code is 1, to `supportVertex` when the flag is true and the tool code is 0,
and to `pathVertex` otherwise. -/
def pushSeg (L : Layer) (p1 p2 : MState) (tc : ℕ) (extr : Bool) : Layer :=
  if extr ∧ tc = 1 then { L with vertex := L.vertex ++ seg p1 p2 }
  else if extr ∧ tc = 0 then { L with supportVertex := L.supportVertex ++ seg p1 p2 }
  else { L with pathVertex := L.pathVertex ++ seg p1 p2 }

/-- Source's `addSegment(p1, p2, tc)`: when no current layer exists,
`newLayer(p1)` first creates one at `p1.z`; then the segment is pushed to
exactly one list of the current layer according to the extruding flag and
tool code. -/
def addSegment (p1 p2 : MState) (tc : ℕ) (extr : Bool)
    (done : List Layer) (cur : Option Layer) : List Layer × Option Layer :=
  match cur with
  | none => (done, some (pushSeg { vertex := [], pathVertex := [], supportVertex := [], z := p1.z } p1 p2 tc extr))
  | some L => (done, some (pushSeg L p1 p2 tc extr))

/-- The target `line` object of a G0/G1 (source lines 144–161): each axis
present in the arguments is run through `absolute`, absent axes keep the
current value; when the tool code is not 0, an explicit X argument is
first reduced by 22.  The replacement `state = line` stores an object with
no `extruding`/`relative` properties (undefined reads falsy), recorded as
`false`. -/
def targetOf (s : MState) (args : Char → Option JSNum) (tc : ℕ) : MState :=
  if tc = 0 then
    { x := match args 'x' with | some v => absolute s.relative s.x v | none => s.x,
      y := match args 'y' with | some v => absolute s.relative s.y v | none => s.y,
      z := match args 'z' with | some v => absolute s.relative s.z v | none => s.z,
      e := match args 'e' with | some v => absolute s.relative s.e v | none => s.e,
      f := match args 'f' with | some v => absolute s.relative s.f v | none => s.f,
      extruding := false, relative := false }
  else
    { x := match args 'x' with | some v => absolute s.relative s.x (jsub v (some 22)) | none => s.x,
      y := match args 'y' with | some v => absolute s.relative s.y v | none => s.y,
      z := match args 'z' with | some v => absolute s.relative s.z v | none => s.z,
      e := match args 'e' with | some v => absolute s.relative s.e v | none => s.e,
      f := match args 'f' with | some v => absolute s.relative s.f v | none => s.f,
      extruding := false, relative := false }

/-- The extrusion delta of a G0/G1: source's `delta(state.e, line.e)`. -/
def moveDelta (s : MState) (args : Char → Option JSNum) (tc : ℕ) : JSNum :=
  delta s.relative s.e (targetOf s args tc).e

/-- The extruding flag as read by `addSegment` during a G0/G1: set to true
inside the `delta > 0` branch, otherwise the value already in `state`. -/
def moveExtr (s : MState) (args : Char → Option JSNum) (tc : ℕ) : Bool :=
  if jgt (moveDelta s args tc) (some 0) then true else s.extruding

/-- One G0/G1 step (source lines 143–173): compute the target, on a
positive extrusion delta set the flag and open a new layer when none
exists or the target Z differs from the current layer's Z, then append the
segment from the previous state to the target, and finally replace the
machine state wholesale by the target. -/
def stepMove (args : Char → Option JSNum) (tc : ℕ) (ps : PState) : PState :=
  let s := ps.state
  let t := targetOf s args tc
  let layerPr :=
    if jgt (moveDelta s args tc) (some 0) then
      match ps.cur with
      | none => newLayer t.z ps.done none
      | some L => if jne t.z L.z then newLayer t.z ps.done (some L) else (ps.done, some L)
    else (ps.done, ps.cur)
  let segPr := addSegment s t tc (moveExtr s args tc) layerPr.1 layerPr.2
  { state := t, done := segPr.1, cur := segPr.2 }

/-- JS `String.prototype.split(sep)` for a one-character separator: keeps
empty pieces, and the empty string splits to one empty piece. -/
def splitChar (sep : Char) (cs : List Char) : List (List Char) :=
  cs.foldr
    (fun c acc =>
      match acc with
      | [] => [[c]]
      | g :: gs => if c = sep then [] :: g :: gs else (c :: g) :: gs)
    [[]]

/-- One step of the regex `/;.+/g`: within a line, everything from the
first `;` that is followed by at least one character is removed (`.+`
needs one character, so a lone trailing `;` survives). -/
def stripComment : List Char → List Char
  | [] => []
  | c :: rest => if c = ';' ∧ rest ≠ [] then [] else c :: stripComment rest

/-- Is `pat` a prefix of `s`? -/
def leadsWith : List Char → List Char → Bool
  | [], _ => true
  | _ :: _, [] => false
  | a :: as, b :: bs => a = b && leadsWith as bs

/-- JS `String.prototype.includes(pat)` for non-empty `pat`. -/
def containsSub (pat : List Char) : List Char → Bool
  | [] => pat.isEmpty
  | c :: rest => leadsWith pat (c :: rest) || containsSub pat rest

/-- Value of the base-10 digit list. -/
def digitsVal (ds : List Char) : ℕ :=
  ds.foldl (fun a c => 10 * a + (c.toNat - 48)) 0

/-- Model of `parseFloat` on a token remainder: optional sign, decimal
digits, optional `.` and fraction digits; the longest such prefix is the
value and anything after it is ignored; `none` (NaN) when no digit at all
is found.  (Exponent/hexadecimal forms are not modelled.) -/
def parseFloatQ (cs : List Char) : JSNum :=
  let pr : ℚ × List Char :=
    match cs with
    | '-' :: r => (-1, r)
    | '+' :: r => (1, r)
    | _ => (1, cs)
  let intD := pr.2.takeWhile Char.isDigit
  let rest := pr.2.dropWhile Char.isDigit
  let fracD := match rest with | '.' :: r => r.takeWhile Char.isDigit | _ => []
  if intD.isEmpty && fracD.isEmpty then none
  else some (pr.1 * ((digitsVal intD : ℚ) + (digitsVal fracD : ℚ) / ((10 : ℚ) ^ fracD.length)))

/-- The tokens of a line: `line.split(" ")`. -/
def tokensOf (l : List Char) : List (List Char) :=
  splitChar ' ' l

/-- The command code: first token, upper-cased (source line 129). -/
def cmdOf (l : List Char) : List Char :=
  ((tokensOf l).headD []).map Char.toUpper

/-- Build the `args` object from the tokens after the first (source lines
132–139): a non-empty token binds its lower-cased first character to the
`parseFloat` of the remainder; later bindings overwrite earlier ones.
Presence of a key (`args.x !== undefined`) is `some`; a present key bound
to NaN is `some none`. -/
def parseArgs (ts : List (List Char)) : Char → Option JSNum :=
  ts.foldl
    (fun acc t =>
      match t with
      | [] => acc
      | k :: rest => fun c => if c = k.toLower then some (parseFloatQ rest) else acc c)
    (fun _ => none)

/-- The arguments of a line. -/
def argsOf (l : List Char) : Char → Option JSNum :=
  parseArgs ((tokensOf l).drop 1)

/-- The tool-code update performed on every line (source lines 119–126):
`tcode = 1` when the line contains `"T1"`, then `tcode = 0` when it
contains `"T0"` (so a line containing both ends at 0). -/
def lineTc (l : List Char) (tc : ℕ) : ℕ :=
  let a := if containsSub ['T', '1'] l then 1 else tc
  if containsSub ['T', '0'] l then 0 else a

/-- G92 (source lines 183–189): rewrite `x`, `y`, `z`, `e` in place from
any present argument (the raw value, no `absolute` translation, `f` and
the flags untouched); no segment, no layer. -/
def stepSetPos (args : Char → Option JSNum) (s : MState) : MState :=
  { s with
    x := (args 'x').getD s.x,
    y := (args 'y').getD s.y,
    z := (args 'z').getD s.z,
    e := (args 'e').getD s.e }

/-- Process one (comment-stripped) line: update the tool code from the
embedded `T1`/`T0` markers, then dispatch on the command code
(source lines 119–192).  Unrecognized codes fall through with no effect. -/
def processLine (l : List Char) (ps : PState) (tc : ℕ) : PState × ℕ :=
  let tc2 := lineTc l tc
  let cmd := cmdOf l
  let args := argsOf l
  if cmd = ['G', '0'] ∨ cmd = ['G', '1'] then (stepMove args tc2 ps, tc2)
  else if cmd = ['G', '2'] ∨ cmd = ['G', '3'] then (ps, tc2)
  else if cmd = ['G', '9', '0'] then
    ({ ps with state := { ps.state with relative := false } }, tc2)
  else if cmd = ['G', '9', '1'] then
    ({ ps with state := { ps.state with relative := true } }, tc2)
  else if cmd = ['G', '9', '2'] then
    ({ ps with state := stepSetPos args ps.state }, tc2)
  else (ps, tc2)

/-- The whole parse pass (source lines 56–193): strip comments, split into
lines, and fold the per-line step over fresh parse-local state.  The tool
code is the module-level `tcode`: it enters from outside the call and its
final value persists for the next call. -/
def parse (data : List Char) (tc : ℕ) : PState × ℕ :=
  ((splitChar '\n' data).map stripComment).foldl
    (fun acc l => processLine l acc.1 acc.2) (initPS, tc)

/-- All extruded-classified coordinates, in layer order. -/
def vertexAll (ps : PState) : List JSNum :=
  ((allLayers ps).map Layer.vertex).flatten

/-- All travel-classified coordinates, in layer order. -/
def pathAll (ps : PState) : List JSNum :=
  ((allLayers ps).map Layer.pathVertex).flatten

/-- All support-classified coordinates, in layer order. -/
def supportAll (ps : PState) : List JSNum :=
  ((allLayers ps).map Layer.supportVertex).flatten

/-- The configuration surface of the loader class. -/
structure LoaderCfg where
  splitLayer : Bool
deriving DecidableEq

/-- The constructor default (source line 26): `this.splitLayer = true`. -/
def defaultLoader : LoaderCfg :=
  { splitLayer := true }

/-- Layer-preserving aggregation (source lines 209–215): the layers are
consumed in order, one object per layer per classification — the layer
sequence itself is the output. -/
def splitOutput (ls : List Layer) : List Layer :=
  ls

/-- The three flattened lists of the aggregator's flattened mode. -/
structure FlatOut where
  vertex : List JSNum
  pathVertex : List JSNum
  supportVertex : List JSNum
deriving DecidableEq

/-- Element-by-element push loop of the flattened mode (the inner `for`
loops of source lines 227–237). -/
def pushAll (dst src : List JSNum) : List JSNum :=
  src.foldl (fun a v => a ++ [v]) dst

/-- Flattened aggregation (source lines 216–242): fold over the layers in
order, pushing each layer's three lists onto the three accumulators. -/
def flattenLayers (ls : List Layer) : FlatOut :=
  ls.foldl
    (fun acc layer =>
      { vertex := pushAll acc.vertex layer.vertex,
        pathVertex := pushAll acc.pathVertex layer.pathVertex,
        supportVertex := pushAll acc.supportVertex layer.supportVertex })
    { vertex := [], pathVertex := [], supportVertex := [] }

/-- Characters of a string literal. -/
def strChars (s : String) : List Char :=
  s.toList

theorem pushSeg_z (L : Layer) (p1 p2 : MState) (tc : ℕ) (extr : Bool) :
    (pushSeg L p1 p2 tc extr).z = L.z := by
  unfold pushSeg; split_ifs <;> rfl

theorem stepMove_state (args : Char → Option JSNum) (tc : ℕ) (ps : PState) :
    (stepMove args tc ps).state = targetOf ps.state args tc := by
  simp [stepMove]

theorem targetOf_extruding (s : MState) (args : Char → Option JSNum) (tc : ℕ) :
    (targetOf s args tc).extruding = false := by
  by_cases htc : tc = 0 <;> simp [targetOf, htc]

theorem targetOf_relative (s : MState) (args : Char → Option JSNum) (tc : ℕ) :
    (targetOf s args tc).relative = false := by
  by_cases htc : tc = 0 <;> simp [targetOf, htc]

theorem stepMove_alls (args : Char → Option JSNum) (tc : ℕ) (ps : PState) :
    ∃ dl : List Layer, ∃ L1 : Layer,
      (stepMove args tc ps).done = dl ∧
      (stepMove args tc ps).cur =
        some (pushSeg L1 ps.state (targetOf ps.state args tc) tc (moveExtr ps.state args tc)) ∧
      (dl.map Layer.vertex).flatten ++ L1.vertex = vertexAll ps ∧
      (dl.map Layer.pathVertex).flatten ++ L1.pathVertex = pathAll ps ∧
      (dl.map Layer.supportVertex).flatten ++ L1.supportVertex = supportAll ps := by
  by_cases hd : jgt (moveDelta ps.state args tc) (some 0) = true
  · cases hc : ps.cur with
    | none =>
      refine ⟨ps.done, ⟨[], [], [], (targetOf ps.state args tc).z⟩, ?_, ?_, ?_, ?_, ?_⟩ <;>
        simp [stepMove, hd, hc, addSegment, newLayer, vertexAll, pathAll, supportAll, allLayers]
    | some L =>
      cases hne : jne (targetOf ps.state args tc).z L.z with
      | true =>
        refine ⟨ps.done ++ [L], ⟨[], [], [], (targetOf ps.state args tc).z⟩, ?_, ?_, ?_, ?_, ?_⟩ <;>
          simp [stepMove, hd, hc, hne, addSegment, newLayer, vertexAll, pathAll, supportAll,
            allLayers]
      | false =>
        refine ⟨ps.done, L, ?_, ?_, ?_, ?_, ?_⟩ <;>
          simp [stepMove, hd, hc, hne, addSegment, vertexAll, pathAll, supportAll, allLayers]
  · cases hc : ps.cur with
    | none =>
      refine ⟨ps.done, ⟨[], [], [], ps.state.z⟩, ?_, ?_, ?_, ?_, ?_⟩ <;>
        simp [stepMove, hd, hc, addSegment, vertexAll, pathAll, supportAll, allLayers]
    | some L =>
      refine ⟨ps.done, L, ?_, ?_, ?_, ?_, ?_⟩ <;>
        simp [stepMove, hd, hc, addSegment, vertexAll, pathAll, supportAll, allLayers]

theorem pushAll_eq_append (dst src : List JSNum) : pushAll dst src = dst ++ src := by
  induction src generalizing dst with
  | nil => simp [pushAll]
  | cons v vs ih => simpa [pushAll, List.foldl_cons] using ih (dst ++ [v])

theorem flattenLayers_fold (ls : List Layer) (acc : FlatOut) :
    ls.foldl
      (fun acc layer =>
        { vertex := pushAll acc.vertex layer.vertex,
          pathVertex := pushAll acc.pathVertex layer.pathVertex,
          supportVertex := pushAll acc.supportVertex layer.supportVertex })
      acc =
    { vertex := acc.vertex ++ (ls.map Layer.vertex).flatten,
      pathVertex := acc.pathVertex ++ (ls.map Layer.pathVertex).flatten,
      supportVertex := acc.supportVertex ++ (ls.map Layer.supportVertex).flatten } := by
  induction ls generalizing acc with
  | nil => simp
  | cons L rest ih =>
    rw [List.foldl_cons, ih]
    simp [pushAll_eq_append, List.append_assoc]

/-- C6: the aggregator's flattened-mode output is exactly the concatenation,
in layer order, of the per-layer extruded (`vertex`), travel (`pathVertex`)
and support (`supportVertex`) sequences of the layer-preserving output, with
no reordering or reclassification; and layer-preserving mode is the default
(`splitLayer` is constructed `true`). -/
theorem c6_aggregator :
    defaultLoader.splitLayer = true ∧
    ∀ ls : List Layer,
      flattenLayers (splitOutput ls) =
        { vertex := ((splitOutput ls).map Layer.vertex).flatten,
          pathVertex := ((splitOutput ls).map Layer.pathVertex).flatten,
          supportVertex := ((splitOutput ls).map Layer.supportVertex).flatten } := by
  refine ⟨rfl, fun ls => ?_⟩
  simpa [flattenLayers, splitOutput] using flattenLayers_fold ls ⟨[], [], []⟩

/-- C9: the tool code is module-level state: it is 0 at load, `parse`
threads it through without resetting it, and two `parse` calls on the
identical text "G1 E1" classify the emitted segment differently (support
when the module is fresh, extruded when a previous `parse` call ended after
a "T1" marker). -/
theorem c9_global_tool_state :
    tcodeInit = 0 ∧
    (parse (strChars "T1") tcodeInit).2 = 1 ∧
    supportAll (parse (strChars "G1 E1") tcodeInit).1 =
      [some 0, some 0, some 0, some 0, some 0, some 0] ∧
    vertexAll (parse (strChars "G1 E1") tcodeInit).1 = [] ∧
    vertexAll (parse (strChars "G1 E1") (parse (strChars "T1") tcodeInit).2).1 =
      [some 0, some 0, some 0, some 0, some 0, some 0] ∧
    supportAll (parse (strChars "G1 E1") (parse (strChars "T1") tcodeInit).2).1 = [] := by
  with_unfolding_all decide

/-- C1 counterexample: after "G1 E5" then "G91", relative positioning is
active and the cumulative E is 5; for the command "G1 E1" the extrusion
delta the interpreter uses is 6 (the target E, i.e. previous E plus the
parameter), not the raw E parameter 1; and for "G1 X2", which has no E
parameter, the delta is 5 rather than 0, so the move still counts as
extruding. -/
theorem c1_counterexample :
    (parse (strChars "G1 E5\nG91") tcodeInit).1.state.relative = true ∧
    argsOf (strChars "G1 E1") 'e' = some (some 1) ∧
    moveDelta (parse (strChars "G1 E5\nG91") tcodeInit).1.state
      (argsOf (strChars "G1 E1")) tcodeInit = some 6 ∧
    (some (6 : ℚ) : JSNum) ≠ some 1 ∧
    argsOf (strChars "G1 X2") 'e' = none ∧
    moveDelta (parse (strChars "G1 E5\nG91") tcodeInit).1.state
      (argsOf (strChars "G1 X2")) tcodeInit = some 5 ∧
    (some (5 : ℚ) : JSNum) ≠ some 0 ∧
    moveExtr (parse (strChars "G1 E5\nG91") tcodeInit).1.state
      (argsOf (strChars "G1 X2")) tcodeInit = true := by
  with_unfolding_all decide

/-- C5 counterexample: the line "G2 T1" has command code G2, yet processing
it changes the active tool index from 0 to 1 (the `T1` marker scan runs on
every line before command dispatch), so not every machine-state field is
left unchanged by a G2/G3 line. -/
theorem c5_counterexample :
    cmdOf (strChars "G2 T1") = ['G', '2'] ∧
    (processLine (strChars "G2 T1") initPS tcodeInit).2 ≠ tcodeInit := by
  with_unfolding_all decide

/-- C7 counterexample: the line "T1" has a command code recognized by none
of the G0/G1/G2/G3/G90/G91/G92 branches, yet processing it changes the
active tool index from 0 to 1. -/
theorem c7_counterexample :
    cmdOf (strChars "T1") ∉
      [['G', '0'], ['G', '1'], ['G', '2'], ['G', '3'],
       ['G', '9', '0'], ['G', '9', '1'], ['G', '9', '2']] ∧
    (processLine (strChars "T1") initPS tcodeInit).2 ≠ tcodeInit := by
  with_unfolding_all decide

/-- C8 counterexample: in "G1 E1\nG1 X5" the first move has positive delta
and is classified support (tool 0), but the wholesale state replacement
leaves `extruding` false, so the second move — whose own delta is zero —
is classified travel, not support: the flag is not sticky. -/
theorem c8_counterexample :
    (parse (strChars "G1 E1") tcodeInit).1.state.extruding = false ∧
    supportAll (parse (strChars "G1 E1\nG1 X5") tcodeInit).1 =
      [some 0, some 0, some 0, some 0, some 0, some 0] ∧
    pathAll (parse (strChars "G1 E1\nG1 X5") tcodeInit).1 =
      [some 0, some 0, some 0, some 5, some 0, some 0] ∧
    vertexAll (parse (strChars "G1 E1\nG1 X5") tcodeInit).1 = [] := by
  with_unfolding_all decide

/-- C1 (amended): in absolute mode the extrusion delta equals target E
minus the previous state's E; in relative mode it equals the target E
itself — the previous E plus the raw E parameter when one is present, and
the previous E unchanged when none is — not the raw E parameter. -/
theorem c1_amended (s : MState) (args : Char → Option JSNum) (tc : ℕ) :
    (s.relative = false → moveDelta s args tc = jsub (targetOf s args tc).e s.e) ∧
    (s.relative = true →
      moveDelta s args tc = (targetOf s args tc).e ∧
      (∀ v, args 'e' = some v → (targetOf s args tc).e = jadd s.e v) ∧
      (args 'e' = none → moveDelta s args tc = s.e)) := by
  constructor
  · intro h; simp [moveDelta, delta, h]
  · intro h
    refine ⟨by simp [moveDelta, delta, h], ?_, ?_⟩
    · intro v hv
      by_cases htc : tc = 0 <;> simp [targetOf, absolute, htc, hv, h]
    · intro hn
      by_cases htc : tc = 0 <;> simp [moveDelta, delta, targetOf, htc, hn, h]

/-- C1 witness: concrete instance of the amended statement, relative mode
with no E parameter. -/
theorem c1_witness :
    moveDelta { initState with relative := true } (argsOf (strChars "G1 X2")) 0 =
      { initState with relative := true }.e :=
  ((c1_amended { initState with relative := true } (argsOf (strChars "G1 X2")) 0).2 rfl).2.2
    (by with_unfolding_all decide)

/-- C2: a G0/G1 appends the segment from the previous position to the
target position to exactly one list: the extruded list when the extruding
flag reads true and the tool code is 1, the support list when the flag
reads true and the tool code is 0, and the travel list in every other
case; the other two lists are unchanged. -/
theorem c2_classification (args : Char → Option JSNum) (tc : ℕ) (ps : PState) :
    (moveExtr ps.state args tc = true ∧ tc = 1 →
      vertexAll (stepMove args tc ps) =
        vertexAll ps ++ seg ps.state (targetOf ps.state args tc) ∧
      pathAll (stepMove args tc ps) = pathAll ps ∧
      supportAll (stepMove args tc ps) = supportAll ps) ∧
    (moveExtr ps.state args tc = true ∧ tc = 0 →
      supportAll (stepMove args tc ps) =
        supportAll ps ++ seg ps.state (targetOf ps.state args tc) ∧
      vertexAll (stepMove args tc ps) = vertexAll ps ∧
      pathAll (stepMove args tc ps) = pathAll ps) ∧
    (moveExtr ps.state args tc = false ∨ (tc ≠ 0 ∧ tc ≠ 1) →
      pathAll (stepMove args tc ps) =
        pathAll ps ++ seg ps.state (targetOf ps.state args tc) ∧
      vertexAll (stepMove args tc ps) = vertexAll ps ∧
      supportAll (stepMove args tc ps) = supportAll ps) := by
  obtain ⟨dl, L1, hdone, hcur, hv, hp, hs⟩ := stepMove_alls args tc ps
  have hva : vertexAll (stepMove args tc ps) =
      (dl.map Layer.vertex).flatten ++
        (pushSeg L1 ps.state (targetOf ps.state args tc) tc (moveExtr ps.state args tc)).vertex := by
    simp [vertexAll, allLayers, hdone, hcur]
  have hpa : pathAll (stepMove args tc ps) =
      (dl.map Layer.pathVertex).flatten ++
        (pushSeg L1 ps.state (targetOf ps.state args tc) tc
          (moveExtr ps.state args tc)).pathVertex := by
    simp [pathAll, allLayers, hdone, hcur]
  have hsa : supportAll (stepMove args tc ps) =
      (dl.map Layer.supportVertex).flatten ++
        (pushSeg L1 ps.state (targetOf ps.state args tc) tc
          (moveExtr ps.state args tc)).supportVertex := by
    simp [supportAll, allLayers, hdone, hcur]
  refine ⟨?_, ?_, ?_⟩
  · rintro ⟨hex, rfl⟩
    rw [hva, hpa, hsa]
    simp [pushSeg, hex, ← hv, ← hp, ← hs]
  · rintro ⟨hex, rfl⟩
    rw [hva, hpa, hsa]
    simp [pushSeg, hex, ← hv, ← hp, ← hs]
  · intro hcase
    rw [hva, hpa, hsa]
    rcases hcase with hex | ⟨h0, h1⟩
    · simp [pushSeg, hex, ← hv, ← hp, ← hs]
    · simp [pushSeg, h0, h1, ← hv, ← hp, ← hs]

/-- C2 witness: the extruding move of "G1 E1" under tool 0 lands in the
support list. -/
theorem c2_witness :
    supportAll (stepMove (argsOf (strChars "G1 E1")) 0 initPS) =
      supportAll initPS ++ seg initPS.state (targetOf initPS.state (argsOf (strChars "G1 E1")) 0) :=
  ((c2_classification (argsOf (strChars "G1 E1")) 0 initPS).2.1
    ⟨by with_unfolding_all decide, rfl⟩).1

/-- C3: on a G0/G1 with positive extrusion delta, the Z values of previous
layers are preserved as a prefix; when no current layer exists, or the
target Z differs from the current layer's Z, exactly one layer is added
and its Z is the target Z; when the target Z equals the current layer's Z
no layer is added and no Z changes. -/
theorem c3_layers (args : Char → Option JSNum) (tc : ℕ) (ps : PState)
    (hd : jgt (moveDelta ps.state args tc) (some 0) = true) :
    ((allLayers ps).map Layer.z) <+: ((allLayers (stepMove args tc ps)).map Layer.z) ∧
    (ps.cur = none →
      (allLayers (stepMove args tc ps)).map Layer.z =
        (allLayers ps).map Layer.z ++ [(targetOf ps.state args tc).z]) ∧
    (∀ L, ps.cur = some L → jne (targetOf ps.state args tc).z L.z = true →
      (allLayers (stepMove args tc ps)).map Layer.z =
        (allLayers ps).map Layer.z ++ [(targetOf ps.state args tc).z]) ∧
    (∀ L, ps.cur = some L → jne (targetOf ps.state args tc).z L.z = false →
      (allLayers (stepMove args tc ps)).map Layer.z = (allLayers ps).map Layer.z) := by
  have h2 : ps.cur = none →
      (allLayers (stepMove args tc ps)).map Layer.z =
        (allLayers ps).map Layer.z ++ [(targetOf ps.state args tc).z] := by
    intro hc
    simp [stepMove, hd, hc, addSegment, newLayer, allLayers, pushSeg_z]
  have h3 : ∀ L, ps.cur = some L → jne (targetOf ps.state args tc).z L.z = true →
      (allLayers (stepMove args tc ps)).map Layer.z =
        (allLayers ps).map Layer.z ++ [(targetOf ps.state args tc).z] := by
    intro L hc hne
    simp [stepMove, hd, hc, hne, addSegment, newLayer, allLayers, pushSeg_z]
  have h4 : ∀ L, ps.cur = some L → jne (targetOf ps.state args tc).z L.z = false →
      (allLayers (stepMove args tc ps)).map Layer.z = (allLayers ps).map Layer.z := by
    intro L hc hne
    simp [stepMove, hd, hc, hne, addSegment, allLayers, pushSeg_z]
  refine ⟨?_, h2, h3, h4⟩
  cases hc : ps.cur with
  | none => rw [h2 hc]; exact List.prefix_append _ _
  | some L =>
    cases hne : jne (targetOf ps.state args tc).z L.z with
    | true => rw [h3 L hc hne]; exact List.prefix_append _ _
    | false => rw [h4 L hc hne]

/-- C3 witness: the first extruding move from a fresh state opens exactly
one layer at the target Z. -/
theorem c3_witness :
    (allLayers (stepMove (argsOf (strChars "G1 E1")) 0 initPS)).map Layer.z =
      (allLayers initPS).map Layer.z ++
        [(targetOf initPS.state (argsOf (strChars "G1 E1")) 0).z] :=
  (c3_layers (argsOf (strChars "G1 E1")) 0 initPS (by with_unfolding_all decide)).2.1 rfl

/-- C4: with an explicit X argument the target X under tool 1 is exactly
22 less than under tool 0 (whatever the positioning mode); under tool 0 the
X argument is used without offset; without an X argument the X coordinate
is retained under either tool. -/
theorem c4_tool_offset (s : MState) (args : Char → Option JSNum) :
    (∀ v, args 'x' = some v →
      (targetOf s args 1).x = jsub (targetOf s args 0).x (some 22) ∧
      (targetOf s args 0).x = absolute s.relative s.x v) ∧
    (args 'x' = none → ∀ tc, (targetOf s args tc).x = s.x) := by
  constructor
  · intro v hv
    constructor
    · cases hr : s.relative <;> cases v with
      | none => simp [targetOf, absolute, hv, hr, jadd, jsub]
      | some q =>
        cases hsx : s.x <;>
          simp [targetOf, absolute, hv, hr, hsx, jadd, jsub] <;> ring
    · simp [targetOf, hv]
  · intro hn tc
    by_cases htc : tc = 0 <;> simp [targetOf, htc, hn]

/-- C4 witness: concrete −22 shift for "G1 X10". -/
theorem c4_witness :
    (targetOf initState (argsOf (strChars "G1 X10")) 1).x =
      jsub (targetOf initState (argsOf (strChars "G1 X10")) 0).x (some 22) :=
  ((c4_tool_offset initState (argsOf (strChars "G1 X10"))).1 (some 10)
    (by with_unfolding_all decide)).1

/-- C5 (amended): a G2/G3 line emits nothing and leaves the machine state,
the layers and the current layer unchanged; the active tool index, however,
follows the line's embedded T0/T1 markers (0 if the line contains "T0",
else 1 if it contains "T1", else unchanged). -/
theorem c5_amended (l : List Char) (ps : PState) (tc : ℕ)
    (h : cmdOf l = ['G', '2'] ∨ cmdOf l = ['G', '3']) :
    (processLine l ps tc).1 = ps ∧
    (processLine l ps tc).2 =
      (if containsSub ['T', '0'] l then 0
       else if containsSub ['T', '1'] l then 1 else tc) := by
  have htc : lineTc l tc =
      (if containsSub ['T', '0'] l then 0
       else if containsSub ['T', '1'] l then 1 else tc) := by
    by_cases h1 : containsSub ['T', '1'] l <;>
      by_cases h0 : containsSub ['T', '0'] l <;> simp [lineTc, h1, h0]
  rcases h with h | h <;> simp [processLine, h, htc]

/-- C5 witness: a plain G2 line changes nothing. -/
theorem c5_witness :
    (processLine (strChars "G2 X1 Y1") initPS 0).1 = initPS :=
  (c5_amended (strChars "G2 X1 Y1") initPS 0 (Or.inl (by with_unfolding_all decide))).1

/-- C7 (amended): a line whose command code is none of G0, G1, G2, G3,
G90, G91, G92 leaves the machine state, the layers and the current layer
unchanged and emits nothing; the active tool index, however, follows the
line's embedded T0/T1 markers. -/
theorem c7_amended (l : List Char) (ps : PState) (tc : ℕ)
    (h : cmdOf l ∉
      [['G', '0'], ['G', '1'], ['G', '2'], ['G', '3'],
       ['G', '9', '0'], ['G', '9', '1'], ['G', '9', '2']]) :
    (processLine l ps tc).1 = ps ∧
    (processLine l ps tc).2 =
      (if containsSub ['T', '0'] l then 0
       else if containsSub ['T', '1'] l then 1 else tc) := by
  have htc : lineTc l tc =
      (if containsSub ['T', '0'] l then 0
       else if containsSub ['T', '1'] l then 1 else tc) := by
    by_cases h1 : containsSub ['T', '1'] l <;>
      by_cases h0 : containsSub ['T', '0'] l <;> simp [lineTc, h1, h0]
  simp only [List.mem_cons, List.mem_singleton, not_or] at h
  obtain ⟨h1, h2, h3, h4, h5, h6, h7, -⟩ := h
  simp [processLine, h1, h2, h3, h4, h5, h6, h7, htc]

/-- C7 witness: an M-code line changes nothing. -/
theorem c7_witness :
    (processLine (strChars "M104 S200") initPS 0).1 = initPS :=
  (c7_amended (strChars "M104 S200") initPS 0 (by with_unfolding_all decide)).1

/-- C8 (amended): the extruding flag starts false and a positive delta
turns it on for the current command, but the wholesale state replacement
ending every G0/G1 stores an object without the flag (read as false), so
from a false flag each G0/G1 is classified by its own delta and the flag is
false again after processing any line. -/
theorem c8_amended (l : List Char) (args : Char → Option JSNum) (tc : ℕ) (ps : PState) :
    initState.extruding = false ∧
    (jgt (moveDelta ps.state args tc) (some 0) = true → moveExtr ps.state args tc = true) ∧
    (stepMove args tc ps).state.extruding = false ∧
    (ps.state.extruding = false →
      moveExtr ps.state args tc = jgt (moveDelta ps.state args tc) (some 0)) ∧
    (ps.state.extruding = false → (processLine l ps tc).1.state.extruding = false) := by
  refine ⟨rfl, ?_, ?_, ?_, ?_⟩
  · intro h; simp [moveExtr, h]
  · rw [stepMove_state]; exact targetOf_extruding _ _ _
  · intro h
    cases hj : jgt (moveDelta ps.state args tc) (some 0) <;> simp [moveExtr, hj, h]
  · intro h
    simp only [processLine]
    split_ifs <;>
      simp [stepMove_state, targetOf_extruding, stepSetPos, h]

/-- C8 witness: the flag stays false across a G92 line. -/
theorem c8_witness :
    (processLine (strChars "G92 E5") initPS 0).1.state.extruding = false :=
  (c8_amended (strChars "G92 E5") (argsOf (strChars "G92 E5")) 0 initPS).2.2.2.2 rfl

/-- C10: when a segment is recorded with no current layer, the layer made
on the spot takes its Z from the previous state (the segment's start) if
the extrusion delta is not positive, and from the target position if the
delta is positive; a positive delta at a differing Z likewise opens a
layer at the target Z. -/
theorem c10_layer_z (args : Char → Option JSNum) (tc : ℕ) (ps : PState) :
    (ps.cur = none → jgt (moveDelta ps.state args tc) (some 0) = false →
      ∃ L, (stepMove args tc ps).cur = some L ∧ L.z = ps.state.z) ∧
    (ps.cur = none → jgt (moveDelta ps.state args tc) (some 0) = true →
      ∃ L, (stepMove args tc ps).cur = some L ∧ L.z = (targetOf ps.state args tc).z) ∧
    (∀ L0, ps.cur = some L0 → jgt (moveDelta ps.state args tc) (some 0) = true →
      jne (targetOf ps.state args tc).z L0.z = true →
      ∃ L, (stepMove args tc ps).cur = some L ∧ L.z = (targetOf ps.state args tc).z) := by
  refine ⟨?_, ?_, ?_⟩
  · intro hc hd
    refine ⟨pushSeg ⟨[], [], [], ps.state.z⟩
      ps.state (targetOf ps.state args tc) tc (moveExtr ps.state args tc), ?_, ?_⟩
    · simp [stepMove, hc, hd, addSegment]
    · exact pushSeg_z _ _ _ _ _
  · intro hc hd
    refine ⟨pushSeg ⟨[], [], [], (targetOf ps.state args tc).z⟩
      ps.state (targetOf ps.state args tc) tc (moveExtr ps.state args tc), ?_, ?_⟩
    · simp [stepMove, hc, hd, addSegment, newLayer]
    · exact pushSeg_z _ _ _ _ _
  · intro L0 hc hd hne
    refine ⟨pushSeg ⟨[], [], [], (targetOf ps.state args tc).z⟩
      ps.state (targetOf ps.state args tc) tc (moveExtr ps.state args tc), ?_, ?_⟩
    · simp [stepMove, hc, hd, hne, addSegment, newLayer]
    · exact pushSeg_z _ _ _ _ _

/-- C10 witness: a non-extruding first move ("G0 X3") opens its layer at
the start point's Z. -/
theorem c10_witness :
    ∃ L, (stepMove (argsOf (strChars "G0 X3")) 0 initPS).cur = some L ∧
      L.z = initPS.state.z :=
  (c10_layer_z (argsOf (strChars "G0 X3")) 0 initPS).1 rfl (by with_unfolding_all decide)

end GCodeLayer
